import Mathlib

/-!
Verification of the inbox polling client of the tempmail repository
(file base_static/js/index/tempmail.js, class TempMailApp).

The JavaScript client is single threaded and event driven: every handler
runs atomically between awaits, so its behaviour is embedded as pure Lean
functions on explicit state records, and interleavings of timer callbacks
are modelled as lists of events folded over a step function.
-/

namespace TempMail

/-- Maximum number of consecutive backoff retries (field maxRetries = 5). -/
def maxRetries : Nat := 5

/-- Period of the foreground polling interval created by startPolling
(4000 ms, tempmail.js line 330). -/
def pollingPeriodMs : Nat := 4000

/-- Embedding of scheduleRetryWithBackoff (tempmail.js lines 221-235).
Input: the current value of this.retryCount.  Output: the new value of
this.retryCount together with the delay in milliseconds of the scheduled
retry, or none when the method returns without scheduling one.
The code increments retryCount before computing the delay
2 ^ retryCount * 1000, and when retryCount has already reached maxRetries
it resets the counter to 0 and schedules nothing. -/
def scheduleRetryWithBackoff (retryCount : Nat) : Nat × Option Nat :=
  if retryCount ≥ maxRetries then
    (0, none)
  else
    let rc := retryCount + 1
    (rc, some (2 ^ rc * 1000))

/-- The delays scheduled by n consecutive failing polls starting from a
given retryCount, paired with the final retryCount: each failure calls
scheduleRetryWithBackoff once. -/
def backoffTrace : Nat → Nat → List (Option Nat) × Nat
  | rc, 0 => ([], rc)
  | rc, n + 1 =>
    let step := scheduleRetryWithBackoff rc
    let rest := backoffTrace step.1 n
    (step.2 :: rest.1, rest.2)

/-- The fields of TempMailApp that refreshMessages reads or writes
(tempmail.js constructor, lines 2-17), leaving out DOM handles. -/
structure ClientState where
  isRefreshing : Bool
  isResetting : Bool
  sessionSecondsRemaining : Int
  lastMessageCount : Nat
  retryCount : Nat
deriving Repr, DecidableEq

/-- Outcome of the fetch to /api/messages/ observed by refreshMessages:
a success body with a message list of the given length, an HTTP error
body (carrying the status and whether data.error is the session-not-found
marker), or a thrown network exception. -/
inductive PollResponse where
  | ok (messages : Nat)
  | httpError (status : Nat) (sessionNotFound : Bool)
  | networkError
deriving Repr, DecidableEq

/-- Everything one invocation of refreshMessages does: the final field
values plus the observable actions of that tick. -/
structure TickResult where
  state : ClientState
  /-- true when the fetch to /api/messages/ was issued. -/
  fetched : Bool
  /-- true when renderMessages was called. -/
  rendered : Bool
  /-- true when notifyNewEmail was called. -/
  notified : Bool
  /-- true when the session-recovery loadEmail call was made (400 path). -/
  calledLoadEmail : Bool
  /-- true when stopPolling was called by this tick. -/
  stoppedPolling : Bool
  /-- delay of the retry scheduled by this tick, if any. -/
  scheduledRetryDelay : Option Nat
deriving Repr, DecidableEq

/-- A tick that issues no request and performs no action. -/
def skippedTick (s : ClientState) : TickResult :=
  { state := s, fetched := false, rendered := false, notified := false,
    calledLoadEmail := false, stoppedPolling := false,
    scheduledRetryDelay := none }

/-- Embedding of refreshMessages (tempmail.js lines 341-414) as a function
of the client state, the per-tick environment (document.hidden and whether
the message view is open, i.e. view-list carries the hidden class), and
the response of the fetch.  The JavaScript method is async but every
segment between awaits runs atomically; a single tick is summarised by its
final state and its observable actions. -/
def refreshMessages (s : ClientState) (hidden isReadingMessage : Bool)
    (resp : PollResponse) : TickResult :=
  let isCriticalTime : Bool :=
    decide (0 < s.sessionSecondsRemaining) &&
      decide (s.sessionSecondsRemaining ≤ 25)
  if s.isRefreshing || s.isResetting || isReadingMessage then
    skippedTick s
  else if hidden && !isCriticalTime then
    skippedTick s
  else if s.sessionSecondsRemaining ≤ 0 then
    { skippedTick s with stoppedPolling := true }
  else
    match resp with
    | .ok n =>
      let s1 :=
        if s.lastMessageCount < n then
          { s with lastMessageCount := n, retryCount := 0 }
        else if n = 0 then
          { s with lastMessageCount := 0, retryCount := 0 }
        else
          { s with retryCount := 0 }
      { state := { s1 with isRefreshing := false },
        fetched := true,
        rendered := decide (s.lastMessageCount < n),
        notified := decide (s.lastMessageCount < n) && hidden && isCriticalTime,
        calledLoadEmail := false, stoppedPolling := false,
        scheduledRetryDelay := none }
    | .httpError status sessionNotFound =>
      if sessionNotFound || status = 400 then
        { state := { s with isRefreshing := false },
          fetched := true, rendered := false, notified := false,
          calledLoadEmail := !s.isResetting, stoppedPolling := false,
          scheduledRetryDelay := none }
      else if 500 ≤ status then
        let retry := scheduleRetryWithBackoff s.retryCount
        { state := { s with retryCount := retry.1, isRefreshing := false },
          fetched := true, rendered := false, notified := false,
          calledLoadEmail := false, stoppedPolling := false,
          scheduledRetryDelay := retry.2 }
      else
        { state := { s with isRefreshing := false },
          fetched := true, rendered := false, notified := false,
          calledLoadEmail := false, stoppedPolling := false,
          scheduledRetryDelay := none }
    | .networkError =>
      let retry := scheduleRetryWithBackoff s.retryCount
      { state := { s with retryCount := retry.1, isRefreshing := false },
        fetched := true, rendered := false, notified := false,
        calledLoadEmail := false, stoppedPolling := false,
        scheduledRetryDelay := retry.2 }

/-- Any tick of refreshMessages on a success response either skips the
fetch or ends with retryCount = 0. -/
theorem refreshMessages_ok_retry (s : ClientState) (hidden reading : Bool)
    (n : Nat) :
    (refreshMessages s hidden reading (.ok n)).fetched = false ∨
    (refreshMessages s hidden reading (.ok n)).state.retryCount = 0 := by
  simp only [refreshMessages, skippedTick]
  split
  · left; rfl
  · split
    · left; rfl
    · split
      · left; rfl
      · right
        split
        · rfl
        · split <;> rfl

/-- While the document is hidden, a tick of refreshMessages either skips
the fetch or the session is inside the critical window. -/
theorem refreshMessages_hidden_guard (s : ClientState) (reading : Bool)
    (resp : PollResponse) :
    (refreshMessages s true reading resp).fetched = false ∨
    (0 < s.sessionSecondsRemaining ∧ s.sessionSecondsRemaining ≤ 25) := by
  simp only [refreshMessages, skippedTick]
  split
  · left; rfl
  · split
    · left; rfl
    · next h2 =>
      right
      simp only [Bool.true_and, Bool.not_eq_true', Bool.not_eq_false,
        Bool.and_eq_true, decide_eq_true_eq] at h2
      exact h2

/-- C1: for every sequence of consecutive poll failures,
scheduleRetryWithBackoff schedules delays of exactly 2, 4, 8, 16, 32
seconds (delay = 2 ^ retryCount * 1000 ms as retryCount takes the values
1 through 5), the invocation after the fifth failure resets retryCount to
0 and schedules no sixth retry, and every successful poll resets
retryCount to 0. -/
theorem claim_C1_backoff (s : ClientState) (hidden reading : Bool) (n : Nat) :
    backoffTrace 0 6 =
      ([some 2000, some 4000, some 8000, some 16000, some 32000, none], 0) ∧
    (∀ rc, rc < maxRetries →
      scheduleRetryWithBackoff rc = (rc + 1, some (2 ^ (rc + 1) * 1000))) ∧
    scheduleRetryWithBackoff maxRetries = (0, none) ∧
    ((refreshMessages s hidden reading (.ok n)).fetched = true →
      (refreshMessages s hidden reading (.ok n)).state.retryCount = 0) := by
  refine ⟨by decide, ?_, by decide, ?_⟩
  · intro rc h
    unfold scheduleRetryWithBackoff
    rw [if_neg (by omega)]
  · intro hf
    rcases refreshMessages_ok_retry s hidden reading n with h | h
    · rw [hf] at h; exact absurd h (by simp)
    · exact h

/-- Witness for C1 at a concrete state: a successful poll from a state
with retryCount = 3 resets the counter to 0. -/
theorem claim_C1_backoff_witness :
    (refreshMessages ⟨false, false, 30, 0, 3⟩ false false (.ok 0)).fetched
        = true ∧
    (refreshMessages ⟨false, false, 30, 0, 3⟩ false false
        (.ok 0)).state.retryCount = 0 := by
  have h := claim_C1_backoff ⟨false, false, 30, 0, 3⟩ false false 0
  exact ⟨by decide, h.2.2.2 (by decide)⟩

/-- C2: while the document is hidden, refreshMessages issues the fetch to
/api/messages/ only inside the critical window
(0 < sessionSecondsRemaining ≤ 25); with 5 seconds remaining and the tab
hidden the tick still fetches, with 100 seconds remaining and the tab
hidden the tick is skipped. -/
theorem claim_C2_hidden_critical_window (s : ClientState) (reading : Bool)
    (resp : PollResponse) :
    ((refreshMessages s true reading resp).fetched = true →
      0 < s.sessionSecondsRemaining ∧ s.sessionSecondsRemaining ≤ 25) ∧
    (s.isRefreshing = false → s.isResetting = false → reading = false →
      s.sessionSecondsRemaining = 5 →
      (refreshMessages s true reading resp).fetched = true) ∧
    (s.sessionSecondsRemaining = 100 →
      (refreshMessages s true reading resp).fetched = false) := by
  refine ⟨?_, ?_, ?_⟩
  · intro hf
    rcases refreshMessages_hidden_guard s reading resp with h | h
    · rw [hf] at h; exact absurd h (by simp)
    · exact h
  · intro h1 h2 h3 h4
    cases resp <;>
      simp [refreshMessages, skippedTick, h1, h2, h3, h4] <;>
      (repeat' split) <;> rfl
  · intro h4
    simp only [refreshMessages, skippedTick, h4]
    split
    · rfl
    · rw [if_pos (by decide)]

/-- Witness for C2: concrete hidden ticks at 5 and at 100 seconds
remaining. -/
theorem claim_C2_hidden_critical_window_witness :
    (refreshMessages ⟨false, false, 5, 0, 0⟩ true false (.ok 0)).fetched
        = true ∧
    (refreshMessages ⟨false, false, 100, 0, 0⟩ true false (.ok 0)).fetched
        = false := by
  exact ⟨(claim_C2_hidden_critical_window ⟨false, false, 5, 0, 0⟩ false
            (.ok 0)).2.1 rfl rfl rfl rfl,
         (claim_C2_hidden_critical_window ⟨false, false, 100, 0, 0⟩ false
            (.ok 0)).2.2 rfl⟩

/-! ### Interleaving model of the poll loop (for the mutual-exclusion
invariant).

refreshMessages is async: it runs atomically from its entry to the await
of the fetch, and again atomically from the arrival of the response to
its return.  A trigger event models any of the ways the method gets
invoked (the 4 second interval, the visibility-change handlers, the
5 minute background timer, a scheduled backoff retry).  A respond event
models the arrival of the response of the outstanding fetch; the 400 path
additionally awaits loadEmail before line 410 clears isRefreshing, which
the recoveryDone event models. -/

/-- One event of the event loop. -/
inductive PollEvent where
  | trigger (hidden isReadingMessage : Bool)
  | respond (resp : PollResponse)
  | recoveryDone
deriving Repr, DecidableEq

/-- The event-loop level state: the client fields, the number of
/api/messages/ requests issued but not yet completed, and whether a 400
recovery (the awaited loadEmail) is pending. -/
structure LoopState where
  client : ClientState
  inFlight : Nat
  recovering : Bool
deriving Repr, DecidableEq

/-- One step of the event loop.  The synchronous prefix of
refreshMessages (guards, isRefreshing := true, issuing the fetch) runs on
trigger; the continuation after the await runs on respond; respond and
recoveryDone stutter when no matching computation is pending. -/
def pollStep (ls : LoopState) (e : PollEvent) : LoopState :=
  match e with
  | .trigger hidden isReadingMessage =>
    let s := ls.client
    let isCriticalTime : Bool :=
      decide (0 < s.sessionSecondsRemaining) &&
        decide (s.sessionSecondsRemaining ≤ 25)
    if s.isRefreshing || s.isResetting || isReadingMessage then ls
    else if hidden && !isCriticalTime then ls
    else if s.sessionSecondsRemaining ≤ 0 then ls
    else
      { ls with client := { s with isRefreshing := true },
                inFlight := ls.inFlight + 1 }
  | .respond resp =>
    if ls.inFlight = 0 then ls
    else
      let s := ls.client
      match resp with
      | .ok n =>
        let s1 :=
          if s.lastMessageCount < n then
            { s with lastMessageCount := n, retryCount := 0 }
          else if n = 0 then
            { s with lastMessageCount := 0, retryCount := 0 }
          else
            { s with retryCount := 0 }
        { ls with client := { s1 with isRefreshing := false },
                  inFlight := ls.inFlight - 1 }
      | .httpError status sessionNotFound =>
        if sessionNotFound || status = 400 then
          if s.isResetting then
            { ls with client := { s with isRefreshing := false },
                      inFlight := ls.inFlight - 1 }
          else
            { ls with inFlight := ls.inFlight - 1, recovering := true }
        else if 500 ≤ status then
          let retry := scheduleRetryWithBackoff s.retryCount
          { ls with client := { s with retryCount := retry.1,
                                       isRefreshing := false },
                    inFlight := ls.inFlight - 1 }
        else
          { ls with client := { s with isRefreshing := false },
                    inFlight := ls.inFlight - 1 }
      | .networkError =>
        let retry := scheduleRetryWithBackoff s.retryCount
        { ls with client := { s with retryCount := retry.1,
                                     isRefreshing := false },
                  inFlight := ls.inFlight - 1 }
  | .recoveryDone =>
    if ls.recovering then
      { ls with client := { ls.client with isRefreshing := false },
                recovering := false }
    else ls

/-- Folding the event loop over a list of events. -/
def pollRun (ls : LoopState) : List PollEvent → LoopState
  | [] => ls
  | e :: es => pollRun (pollStep ls e) es

/-- The mutual-exclusion invariant: at most one poll request is in
flight, a request in flight means isRefreshing is set, and a pending 400
recovery means isRefreshing is set and no request is in flight. -/
def PollInv (ls : LoopState) : Prop :=
  ls.inFlight ≤ 1 ∧
  (ls.inFlight = 1 → ls.client.isRefreshing = true) ∧
  (ls.recovering = true → ls.client.isRefreshing = true ∧ ls.inFlight = 0)

instance (ls : LoopState) : Decidable (PollInv ls) := by
  unfold PollInv; infer_instance

/-- Introduction rule for PollInv on an explicit loop state. -/
theorem pollInv_mk (c : ClientState) (k : Nat) (r : Bool)
    (hk : k ≤ 1) (h2 : k = 1 → c.isRefreshing = true)
    (h3 : r = true → c.isRefreshing = true ∧ k = 0) :
    PollInv ⟨c, k, r⟩ :=
  ⟨hk, h2, h3⟩

/-- Every event of the loop preserves the mutual-exclusion invariant. -/
theorem pollStep_preserves_inv (ls : LoopState) (e : PollEvent)
    (h : PollInv ls) : PollInv (pollStep ls e) := by
  obtain ⟨h1, h2, h3⟩ := h
  cases e with
  | trigger hidden isReadingMessage =>
    simp only [pollStep]
    split
    · exact ⟨h1, h2, h3⟩
    · next hguard =>
      split
      · exact ⟨h1, h2, h3⟩
      · split
        · exact ⟨h1, h2, h3⟩
        · -- a new fetch is issued: isRefreshing was false, so inFlight = 0
          have href : ls.client.isRefreshing = false := by
            cases hb : ls.client.isRefreshing
            · rfl
            · exact absurd (by simp [hb]) hguard
          have hin : ls.inFlight = 0 := by
            rcases Nat.lt_or_ge ls.inFlight 1 with h | h
            · omega
            · have h1' : ls.inFlight = 1 := by omega
              rw [h2 h1'] at href
              exact absurd href (by simp)
          refine pollInv_mk _ _ _ (by omega) (fun _ => rfl) (fun hr => ?_)
          exact absurd (h3 hr).1 (by simp [href])
  | respond resp =>
    by_cases hn : ls.inFlight = 0
    · simp only [pollStep, if_pos hn]
      exact ⟨h1, h2, h3⟩
    · have hin : ls.inFlight = 1 := by omega
      have hrec : ls.recovering = false := by
        cases hb : ls.recovering
        · rfl
        · have := (h3 hb).2
          omega
      cases resp with
      | ok n =>
        simp only [pollStep, if_neg hn]
        refine pollInv_mk _ _ _ (by omega)
          (fun hk => by exfalso; omega) (fun hr => ?_)
        exact absurd hr (by simp [hrec])
      | httpError status sessionNotFound =>
        simp only [pollStep, if_neg hn]
        split
        · split
          · refine pollInv_mk _ _ _ (by omega)
              (fun hk => by exfalso; omega) (fun hr => ?_)
            exact absurd hr (by simp [hrec])
          · exact pollInv_mk _ _ _ (by omega)
              (fun hk => by exfalso; omega)
              (fun _ => ⟨h2 hin, by omega⟩)
        · split
          · refine pollInv_mk _ _ _ (by omega)
              (fun hk => by exfalso; omega) (fun hr => ?_)
            exact absurd hr (by simp [hrec])
          · refine pollInv_mk _ _ _ (by omega)
              (fun hk => by exfalso; omega) (fun hr => ?_)
            exact absurd hr (by simp [hrec])
      | networkError =>
        simp only [pollStep, if_neg hn]
        refine pollInv_mk _ _ _ (by omega)
          (fun hk => by exfalso; omega) (fun hr => ?_)
        exact absurd hr (by simp [hrec])
  | recoveryDone =>
    simp only [pollStep]
    split
    · next hr =>
      refine pollInv_mk _ _ _ h1
        (fun hk => by exfalso; have := (h3 hr).2; omega)
        (fun hfalse => absurd hfalse (by simp))
    · exact ⟨h1, h2, h3⟩

/-- The invariant holds after any run from an invariant state. -/
theorem pollRun_preserves_inv (es : List PollEvent) (ls : LoopState)
    (h : PollInv ls) : PollInv (pollRun ls es) := by
  induction es generalizing ls with
  | nil => exact h
  | cons e es ih => exact ih _ (pollStep_preserves_inv ls e h)

/-- C3: at every point of every interleaving of poll triggers, responses
and recovery completions, starting from a quiescent client (isRefreshing
false, nothing in flight), at most one /api/messages/ request is in
flight; moreover a trigger while isRefreshing is set issues no new fetch,
and every trigger either leaves the loop state unchanged or issues
exactly one new fetch having set isRefreshing. -/
theorem claim_C3_single_inflight_poll (c : ClientState)
    (hq : c.isRefreshing = false) (es : List PollEvent) :
    (pollRun ⟨c, 0, false⟩ es).inFlight ≤ 1 ∧
    (∀ ls : LoopState, ls.client.isRefreshing = true →
      ∀ hidden reading,
        pollStep ls (.trigger hidden reading) = ls) ∧
    (∀ ls : LoopState, ∀ hidden reading,
      pollStep ls (.trigger hidden reading) = ls ∨
      ((pollStep ls (.trigger hidden reading)).client.isRefreshing = true ∧
       (pollStep ls (.trigger hidden reading)).inFlight
          = ls.inFlight + 1)) := by
  refine ⟨?_, ?_, ?_⟩
  · have h0 : PollInv ⟨c, 0, false⟩ :=
      pollInv_mk c 0 false (by omega) (fun h => absurd h (by omega))
        (fun h => absurd h (by simp))
    exact (pollRun_preserves_inv es _ h0).1
  · intro ls href hidden reading
    simp [pollStep, href]
  · intro ls hidden reading
    simp only [pollStep]
    split
    · left; rfl
    · split
      · left; rfl
      · split
        · left; rfl
        · right; exact ⟨rfl, rfl⟩

/-- Witness for C3: a concrete burst of rapid triggers interleaved with
responses keeps at most one request in flight. -/
theorem claim_C3_single_inflight_poll_witness :
    (pollRun ⟨⟨false, false, 30, 0, 0⟩, 0, false⟩
      [.trigger false false, .trigger false false, .trigger true false,
       .respond (.httpError 500 false), .trigger false false,
       .respond .networkError, .trigger false false,
       .respond (.ok 2), .trigger false false]).inFlight ≤ 1 := by
  exact (claim_C3_single_inflight_poll ⟨false, false, 30, 0, 0⟩ rfl
    [.trigger false false, .trigger false false, .trigger true false,
     .respond (.httpError 500 false), .trigger false false,
     .respond .networkError, .trigger false false,
     .respond (.ok 2), .trigger false false]).1

/-! ### Timer-handle model (poll interval, background timer, countdown).

setInterval returns a fresh handle; clearInterval kills it.  The model
tracks the stored handle fields of TempMailApp together with the set of
live interval handles, because the code sometimes keeps a stale handle in
a field after clearing it (stopPolling, line 334, clears the foreground
interval without nulling this.pollingInterval). -/

structure AppTimers where
  sessionSecondsRemaining : Int
  sessionTimerLive : Bool
  /-- value of this.pollingInterval (possibly a stale, cleared handle). -/
  pollingInterval : Option Nat
  /-- handles of the live foreground polling intervals. -/
  foregroundLive : List Nat
  /-- value of this.backgroundPollingTimer. -/
  backgroundPollingTimer : Option Nat
  /-- handles of the live background polling intervals. -/
  backgroundLive : List Nat
  /-- next fresh handle returned by setInterval. -/
  nextHandle : Nat
deriving Repr, DecidableEq

/-- Embedding of stopBackgroundPolling (tempmail.js lines 211-216):
clears the timer and nulls the field. -/
def stopBackgroundPolling (t : AppTimers) : AppTimers :=
  match t.backgroundPollingTimer with
  | some h => { t with backgroundLive := t.backgroundLive.erase h,
                       backgroundPollingTimer := none }
  | none => t

/-- Embedding of stopPolling (tempmail.js lines 333-336): clears the
foreground interval if the field is set (without nulling the field), then
stops background polling. -/
def stopPolling (t : AppTimers) : AppTimers :=
  let t1 := match t.pollingInterval with
    | some h => { t with foregroundLive := t.foregroundLive.erase h }
    | none => t
  stopBackgroundPolling t1

/-- Embedding of startPolling (tempmail.js lines 322-331): a no-op when
the session has expired, otherwise stopPolling first and then a fresh
4 second interval stored in this.pollingInterval. -/
def startPolling (t : AppTimers) : AppTimers :=
  if t.sessionSecondsRemaining ≤ 0 then t
  else
    let t1 := stopPolling t
    { t1 with pollingInterval := some t1.nextHandle,
              foregroundLive := t1.nextHandle :: t1.foregroundLive,
              nextHandle := t1.nextHandle + 1 }

/-- Embedding of startBackgroundPolling (tempmail.js lines 194-206). -/
def startBackgroundPolling (t : AppTimers) : AppTimers :=
  let t1 := stopBackgroundPolling t
  if t1.sessionSecondsRemaining ≤ 0 then t1
  else
    { t1 with backgroundPollingTimer := some t1.nextHandle,
              backgroundLive := t1.nextHandle :: t1.backgroundLive,
              nextHandle := t1.nextHandle + 1 }

/-- Embedding of one firing of the sessionTimer handler
(tempmail.js lines 1370-1380): decrement, and when the result is ≤ 0
clear the countdown interval itself (and nothing else). -/
def sessionTick (t : AppTimers) : AppTimers :=
  if t.sessionTimerLive then
    let t1 :=
      { t with sessionSecondsRemaining := t.sessionSecondsRemaining - 1 }
    if t1.sessionSecondsRemaining ≤ 0 then
      { t1 with sessionTimerLive := false }
    else t1
  else t

/-- Embedding of startSessionCountdown (tempmail.js lines 1364-1368):
clear any previous countdown interval, install the server-issued seconds
value, start a fresh one-second interval. -/
def startSessionCountdown (t : AppTimers) (seconds : Int) : AppTimers :=
  { t with sessionTimerLive := true, sessionSecondsRemaining := seconds }

/-- Embedding of the text rendered by updateCountdownUI
(tempmail.js lines 1383-1407), with gettext as the identity. -/
def countdownText (remaining : Int) : String :=
  if remaining ≤ 0 then "Expirado"
  else
    let minutes := remaining / 60
    let seconds := remaining % 60
    if 0 < minutes then
      toString minutes ++ " min e " ++
        (if (toString seconds).length < 2 then "0" ++ toString seconds
         else toString seconds) ++ "s"
    else if seconds = 1 then toString seconds ++ " segundo"
    else toString seconds ++ " segundos"

/-- The operations of the client that touch the timers. -/
inductive TimerOp where
  | startPolling
  | stopPolling
  | startBackgroundPolling
  | stopBackgroundPolling
  | sessionTick
  | startSessionCountdown (seconds : Int)
deriving Repr, DecidableEq

/-- Apply one timer operation. -/
def applyTimerOp (t : AppTimers) : TimerOp → AppTimers
  | .startPolling => startPolling t
  | .stopPolling => stopPolling t
  | .startBackgroundPolling => startBackgroundPolling t
  | .stopBackgroundPolling => stopBackgroundPolling t
  | .sessionTick => sessionTick t
  | .startSessionCountdown s => startSessionCountdown t s

/-- Apply a sequence of timer operations. -/
def applyTimerOps (t : AppTimers) : List TimerOp → AppTimers
  | [] => t
  | op :: ops => applyTimerOps (applyTimerOp t op) ops

/-- At most one foreground polling interval is live, and any live one is
the one stored in this.pollingInterval. -/
def ForegroundInv (t : AppTimers) : Prop :=
  t.foregroundLive = [] ∨
  ∃ h, t.pollingInterval = some h ∧ t.foregroundLive = [h]

/-- stopBackgroundPolling never touches the live foreground handles. -/
@[simp] theorem stopBackgroundPolling_foregroundLive (t : AppTimers) :
    (stopBackgroundPolling t).foregroundLive = t.foregroundLive := by
  unfold stopBackgroundPolling
  cases t.backgroundPollingTimer <;> rfl

/-- stopBackgroundPolling never touches the pollingInterval field. -/
@[simp] theorem stopBackgroundPolling_pollingInterval (t : AppTimers) :
    (stopBackgroundPolling t).pollingInterval = t.pollingInterval := by
  unfold stopBackgroundPolling
  cases t.backgroundPollingTimer <;> rfl

/-- stopBackgroundPolling never touches the session seconds. -/
@[simp] theorem stopBackgroundPolling_secs (t : AppTimers) :
    (stopBackgroundPolling t).sessionSecondsRemaining
      = t.sessionSecondsRemaining := by
  unfold stopBackgroundPolling
  cases t.backgroundPollingTimer <;> rfl

/-- stopBackgroundPolling never touches the handle counter. -/
@[simp] theorem stopBackgroundPolling_nextHandle (t : AppTimers) :
    (stopBackgroundPolling t).nextHandle = t.nextHandle := by
  unfold stopBackgroundPolling
  cases t.backgroundPollingTimer <;> rfl

/-- After stopBackgroundPolling the background timer field is null. -/
@[simp] theorem stopBackgroundPolling_timer (t : AppTimers) :
    (stopBackgroundPolling t).backgroundPollingTimer = none := by
  unfold stopBackgroundPolling
  cases hb : t.backgroundPollingTimer <;> simp [hb]

/-- Under the invariant, stopPolling leaves no live foreground interval
(even though the pollingInterval field keeps the stale handle). -/
theorem stopPolling_foreground (t : AppTimers) (h : ForegroundInv t) :
    (stopPolling t).foregroundLive = [] := by
  unfold stopPolling
  rcases h with hfl | ⟨h0, hpi, hfl⟩
  · cases hp : t.pollingInterval <;> simp [hp, hfl]
  · simp [hpi, hfl]

/-- stopPolling keeps the stored pollingInterval field (it only clears
the interval, tempmail.js line 334). -/
@[simp] theorem stopPolling_pollingInterval (t : AppTimers) :
    (stopPolling t).pollingInterval = t.pollingInterval := by
  unfold stopPolling
  cases hp : t.pollingInterval <;> simp [hp]

/-- stopPolling keeps the session seconds. -/
@[simp] theorem stopPolling_secs (t : AppTimers) :
    (stopPolling t).sessionSecondsRemaining = t.sessionSecondsRemaining := by
  unfold stopPolling
  cases hp : t.pollingInterval <;> simp [hp]

/-- stopPolling keeps the handle counter. -/
@[simp] theorem stopPolling_nextHandle (t : AppTimers) :
    (stopPolling t).nextHandle = t.nextHandle := by
  unfold stopPolling
  cases hp : t.pollingInterval <;> simp [hp]

/-- stopPolling nulls the background timer field. -/
@[simp] theorem stopPolling_bg (t : AppTimers) :
    (stopPolling t).backgroundPollingTimer = none := by
  unfold stopPolling
  cases hp : t.pollingInterval <;> simp [hp]

/-- startBackgroundPolling never touches the foreground fields. -/
theorem startBackgroundPolling_foreground (t : AppTimers) :
    (startBackgroundPolling t).foregroundLive = t.foregroundLive ∧
    (startBackgroundPolling t).pollingInterval = t.pollingInterval := by
  simp only [startBackgroundPolling]
  split
  · exact ⟨stopBackgroundPolling_foregroundLive t,
           stopBackgroundPolling_pollingInterval t⟩
  · exact ⟨stopBackgroundPolling_foregroundLive t,
           stopBackgroundPolling_pollingInterval t⟩

/-- sessionTick never touches the foreground fields. -/
theorem sessionTick_foreground (t : AppTimers) :
    (sessionTick t).foregroundLive = t.foregroundLive ∧
    (sessionTick t).pollingInterval = t.pollingInterval := by
  simp only [sessionTick]
  split
  · split <;> exact ⟨rfl, rfl⟩
  · exact ⟨rfl, rfl⟩

/-- Every timer operation preserves the foreground invariant. -/
theorem foregroundInv_applyOp (t : AppTimers) (op : TimerOp)
    (h : ForegroundInv t) : ForegroundInv (applyTimerOp t op) := by
  cases op with
  | startPolling =>
    show ForegroundInv (startPolling t)
    unfold startPolling
    split
    · exact h
    · right
      refine ⟨(stopPolling t).nextHandle, rfl, ?_⟩
      show (stopPolling t).nextHandle :: (stopPolling t).foregroundLive = _
      rw [stopPolling_foreground t h]
  | stopPolling =>
    left
    exact stopPolling_foreground t h
  | stopBackgroundPolling =>
    show ForegroundInv (stopBackgroundPolling t)
    rcases h with hfl | ⟨h0, hpi, hfl⟩
    · left; rw [stopBackgroundPolling_foregroundLive t, hfl]
    · right
      exact ⟨h0, by rw [stopBackgroundPolling_pollingInterval t, hpi],
             by rw [stopBackgroundPolling_foregroundLive t, hfl]⟩
  | startBackgroundPolling =>
    show ForegroundInv (startBackgroundPolling t)
    rcases h with hfl | ⟨h0, hpi, hfl⟩
    · left; rw [(startBackgroundPolling_foreground t).1, hfl]
    · right
      exact ⟨h0, by rw [(startBackgroundPolling_foreground t).2, hpi],
             by rw [(startBackgroundPolling_foreground t).1, hfl]⟩
  | sessionTick =>
    show ForegroundInv (sessionTick t)
    rcases h with hfl | ⟨h0, hpi, hfl⟩
    · left; rw [(sessionTick_foreground t).1, hfl]
    · right
      exact ⟨h0, by rw [(sessionTick_foreground t).2, hpi],
             by rw [(sessionTick_foreground t).1, hfl]⟩
  | startSessionCountdown s =>
    show ForegroundInv (startSessionCountdown t s)
    rcases h with hfl | ⟨h0, hpi, hfl⟩
    · left; exact hfl
    · right; exact ⟨h0, hpi, hfl⟩

/-- The foreground invariant holds after any sequence of operations. -/
theorem foregroundInv_applyOps (ops : List TimerOp) (t : AppTimers)
    (h : ForegroundInv t) : ForegroundInv (applyTimerOps t ops) := by
  induction ops generalizing t with
  | nil => exact h
  | cons op ops ih => exact ih _ (foregroundInv_applyOp t op h)

/-- C10: startPolling is a no-op when the session has expired; otherwise
it clears the background timer and any live foreground interval before
installing a single fresh interval (period pollingPeriodMs = 4000 ms);
consequently every sequence of timer operations keeps at most one live
foreground polling interval. -/
theorem claim_C10_single_polling_interval (t : AppTimers)
    (hinv : ForegroundInv t) (ops : List TimerOp) :
    (t.sessionSecondsRemaining ≤ 0 → startPolling t = t) ∧
    (0 < t.sessionSecondsRemaining →
      (startPolling t).backgroundPollingTimer = none ∧
      (startPolling t).pollingInterval = some (stopPolling t).nextHandle ∧
      (startPolling t).foregroundLive = [(stopPolling t).nextHandle]) ∧
    (applyTimerOps t ops).foregroundLive.length ≤ 1 ∧
    pollingPeriodMs = 4000 := by
  refine ⟨?_, ?_, ?_, rfl⟩
  · intro hle
    unfold startPolling
    rw [if_pos hle]
  · intro hgt
    unfold startPolling
    rw [if_neg (by omega)]
    refine ⟨stopPolling_bg t, rfl, ?_⟩
    show (stopPolling t).nextHandle :: (stopPolling t).foregroundLive = _
    rw [stopPolling_foreground t hinv]
  · rcases foregroundInv_applyOps ops t hinv with hfl | ⟨h0, _, hfl⟩ <;>
      simp [hfl]

/-- Witness for C10: a concrete run of operations from a fresh state
keeps at most one live foreground interval. -/
theorem claim_C10_single_polling_interval_witness :
    (applyTimerOps ⟨600, true, none, [], none, [], 0⟩
      [.startPolling, .startBackgroundPolling, .startPolling,
       .sessionTick, .stopPolling, .startPolling]).foregroundLive.length
      ≤ 1 ∧
    startPolling ⟨0, false, none, [], none, [], 0⟩
      = ⟨0, false, none, [], none, [], 0⟩ := by
  constructor
  · exact (claim_C10_single_polling_interval ⟨600, true, none, [], none,
      [], 0⟩ (by left; rfl)
      [.startPolling, .startBackgroundPolling, .startPolling,
       .sessionTick, .stopPolling, .startPolling]).2.2.1
  · exact (claim_C10_single_polling_interval ⟨0, false, none, [], none,
      [], 0⟩ (by left; rfl) []).1 (by decide)

/-- startPolling keeps the session seconds. -/
@[simp] theorem startPolling_secs (t : AppTimers) :
    (startPolling t).sessionSecondsRemaining = t.sessionSecondsRemaining := by
  unfold startPolling
  split
  · rfl
  · simp

/-- startBackgroundPolling keeps the session seconds. -/
@[simp] theorem startBackgroundPolling_secs (t : AppTimers) :
    (startBackgroundPolling t).sessionSecondsRemaining
      = t.sessionSecondsRemaining := by
  simp only [startBackgroundPolling]
  split
  · simp
  · simp

/-- An expired session never lets refreshMessages issue the fetch. -/
theorem refreshMessages_expired (s : ClientState) (hidden reading : Bool)
    (resp : PollResponse) (h : s.sessionSecondsRemaining ≤ 0) :
    (refreshMessages s hidden reading resp).fetched = false := by
  simp only [refreshMessages, skippedTick]
  repeat' split
  all_goals first | rfl | (exfalso; omega)

/-- When the guards pass and the session is expired, the tick calls
stopPolling and returns. -/
theorem refreshMessages_expired_stops (s : ClientState) (reading : Bool)
    (resp : PollResponse) (h1 : s.isRefreshing = false)
    (h2 : s.isResetting = false) (h3 : reading = false)
    (h : s.sessionSecondsRemaining ≤ 0) :
    (refreshMessages s false reading resp).stoppedPolling = true := by
  simp [refreshMessages, skippedTick, h1, h2, h3, h]

/-- C4 counterexample: with one second remaining, a live countdown, and a
live foreground polling interval (handle 0), the countdown tick that
reaches zero clears the countdown itself but leaves the polling interval
running — the countdown handler does not stop the poll loop. -/
theorem claim_C4_countdown_counterexample :
    (sessionTick ⟨1, true, some 0, [0], none, [], 1⟩).sessionSecondsRemaining
        = 0 ∧
    (sessionTick ⟨1, true, some 0, [0], none, [], 1⟩).sessionTimerLive
        = false ∧
    (sessionTick ⟨1, true, some 0, [0], none, [], 1⟩).foregroundLive
        = [0] := by
  exact ⟨by decide, by decide, by decide⟩

/-- C4 (amended): the countdown decrements sessionSecondsRemaining by one
per tick, and nothing except startSessionCountdown (fed the server
expires_in) and the tick itself writes the value; when the decrement
reaches zero the countdown stops itself and the UI text becomes Expirado,
while the poll interval is left running and terminates at its own next
tick: refreshMessages with the session expired issues no request and, when
it gets past the guards, calls stopPolling. -/
theorem claim_C4_countdown (t : AppTimers) (secs : Int) (s : ClientState)
    (hidden reading : Bool) (resp : PollResponse) :
    (startSessionCountdown t secs).sessionSecondsRemaining = secs ∧
    (t.sessionTimerLive = true →
      (sessionTick t).sessionSecondsRemaining
        = t.sessionSecondsRemaining - 1) ∧
    (t.sessionTimerLive = true → t.sessionSecondsRemaining = 1 →
      (sessionTick t).sessionTimerLive = false ∧
      countdownText (sessionTick t).sessionSecondsRemaining = "Expirado" ∧
      (sessionTick t).foregroundLive = t.foregroundLive) ∧
    (∀ op : TimerOp,
      (∀ k, op ≠ .startSessionCountdown k) → op ≠ .sessionTick →
      (applyTimerOp t op).sessionSecondsRemaining
        = t.sessionSecondsRemaining) ∧
    (s.sessionSecondsRemaining ≤ 0 →
      (refreshMessages s hidden reading resp).fetched = false) ∧
    (s.isRefreshing = false → s.isResetting = false → reading = false →
      s.sessionSecondsRemaining ≤ 0 →
      (refreshMessages s false reading resp).stoppedPolling = true) := by
  refine ⟨rfl, ?_, ?_, ?_, ?_, ?_⟩
  · intro hl
    simp only [sessionTick, hl, if_true]
    split <;> rfl
  · intro hl h1
    refine ⟨?_, ?_, ?_⟩ <;>
      simp [sessionTick, countdownText, hl, h1]
  · intro op hk ht
    cases op with
    | startPolling => exact startPolling_secs t
    | stopPolling => exact stopPolling_secs t
    | startBackgroundPolling => exact startBackgroundPolling_secs t
    | stopBackgroundPolling => exact stopBackgroundPolling_secs t
    | sessionTick => exact absurd rfl ht
    | startSessionCountdown k => exact absurd rfl (hk k)
  · exact refreshMessages_expired s hidden reading resp
  · exact refreshMessages_expired_stops s reading resp

/-- Witness for C4 (amended) at concrete inputs. -/
theorem claim_C4_countdown_witness :
    (sessionTick ⟨2, true, none, [], none, [], 0⟩).sessionSecondsRemaining
        = 1 ∧
    (refreshMessages ⟨false, false, 0, 0, 0⟩ false false (.ok 1)).fetched
        = false ∧
    (refreshMessages ⟨false, false, 0, 0, 0⟩ false false
        (.ok 1)).stoppedPolling = true := by
  have h := claim_C4_countdown ⟨2, true, none, [], none, [], 0⟩ 600
    ⟨false, false, 0, 0, 0⟩ false false (.ok 1)
  exact ⟨h.2.1 rfl, h.2.2.2.2.1 (by decide),
         h.2.2.2.2.2 rfl rfl rfl (by decide)⟩

/-! ### Reset flow (confirmResetEmail and clearMessageList). -/

/-- The fields of TempMailApp that the reset flow touches, together with
the rendered message list (listItems = number of rows in the email-list
element). -/
structure ResetClient where
  isResetting : Bool
  currentEmail : String
  emailDisplayValue : String
  listItems : Nat
  emptyStateShown : Bool
  lastMessageCount : Nat
  sessionSecondsRemaining : Int
deriving Repr, DecidableEq

/-- Outcome of the POST to /api/email/. -/
inductive EmailApiResult where
  | ok (email : String) (expiresIn : Int)
  | err (status : Nat)
deriving Repr, DecidableEq

/-- Embedding of clearMessageList (tempmail.js lines 1294-1302): empties
the rendered list and shows the empty state. -/
def clearMessageList (s : ResetClient) : ResetClient :=
  { s with listItems := 0, emptyStateShown := true }

/-- Embedding of confirmResetEmail (tempmail.js lines 1017-1062), up to
(on success) the state before the 2 second cooldown callback fires; only
that callback restarts polling, so the first post-reset poll runs after
this state.  A concurrent reset is a no-op. -/
def confirmResetEmail (s : ResetClient) (resp : EmailApiResult) :
    ResetClient :=
  if s.isResetting then s
  else
    let s1 := { s with isResetting := true, emailDisplayValue := "" }
    match resp with
    | .ok email expiresIn =>
      clearMessageList
        { s1 with currentEmail := email, emailDisplayValue := email,
                  sessionSecondsRemaining := expiresIn }
    | .err _ =>
      { s1 with isResetting := false }

/-- A poll returning an empty list resets lastMessageCount to 0 (or skips
the fetch entirely). -/
theorem refreshMessages_ok0_lmc (s2 : ClientState) (hidden reading : Bool) :
    (refreshMessages s2 hidden reading (.ok 0)).fetched = false ∨
    (refreshMessages s2 hidden reading (.ok 0)).state.lastMessageCount
        = 0 := by
  simp only [refreshMessages, skippedTick]
  split
  · left; rfl
  · split
    · left; rfl
    · split
      · left; rfl
      · right
        split
        · next hlt => exact absurd hlt (by omega)
        · split
          · rfl
          · next hne => exact absurd trivial hne

/-- C5 counterexample: a successful reset from a state with
lastMessageCount = 3 leaves lastMessageCount = 3 (not 0) before the first
post-reset poll response is processed. -/
theorem claim_C5_reset_counterexample :
    (confirmResetEmail ⟨false, "a@tm.io", "a@tm.io", 3, false, 3, 600⟩
        (.ok "b@tm.io" 600)).lastMessageCount = 3 ∧
    (confirmResetEmail ⟨false, "a@tm.io", "a@tm.io", 3, false, 3, 600⟩
        (.ok "b@tm.io" 600)).lastMessageCount ≠ 0 := by
  exact ⟨rfl, by decide⟩

/-- C5 (amended): after every successful session reset via
confirmResetEmail the rendered message list is empty (and the empty state
shown) before the first post-reset poll response is processed, but
lastMessageCount keeps its previous value; it is reset to 0 only by a
later poll whose response carries zero messages. -/
theorem claim_C5_reset (s : ResetClient) (email : String) (exp : Int)
    (h : s.isResetting = false) (s2 : ClientState) (hidden reading : Bool) :
    (confirmResetEmail s (.ok email exp)).listItems = 0 ∧
    (confirmResetEmail s (.ok email exp)).emptyStateShown = true ∧
    (confirmResetEmail s (.ok email exp)).lastMessageCount
        = s.lastMessageCount ∧
    ((refreshMessages s2 hidden reading (.ok 0)).fetched = true →
      (refreshMessages s2 hidden reading (.ok 0)).state.lastMessageCount
        = 0) := by
  refine ⟨?_, ?_, ?_, ?_⟩
  · simp [confirmResetEmail, clearMessageList, h]
  · simp [confirmResetEmail, clearMessageList, h]
  · simp [confirmResetEmail, clearMessageList, h]
  · intro hf
    rcases refreshMessages_ok0_lmc s2 hidden reading with h0 | h0
    · rw [hf] at h0; exact absurd h0 (by simp)
    · exact h0

/-- Witness for C5 (amended) at concrete inputs. -/
theorem claim_C5_reset_witness :
    (confirmResetEmail ⟨false, "a@tm.io", "a@tm.io", 3, false, 3, 600⟩
        (.ok "b@tm.io" 600)).listItems = 0 ∧
    (confirmResetEmail ⟨false, "a@tm.io", "a@tm.io", 3, false, 3, 600⟩
        (.ok "b@tm.io" 600)).lastMessageCount = 3 ∧
    (refreshMessages ⟨false, false, 30, 5, 0⟩ false false
        (.ok 0)).state.lastMessageCount = 0 := by
  have h := claim_C5_reset ⟨false, "a@tm.io", "a@tm.io", 3, false, 3, 600⟩
    "b@tm.io" 600 rfl ⟨false, false, 30, 5, 0⟩ false false
  exact ⟨h.1, h.2.2.1, h.2.2.2 (by decide)⟩

/-! ### New-mail notification (notifyNewEmail). -/

/-- Title shown by the k-th firing of the notifyNewEmail interval
(tempmail.js lines 261-264): isAlert starts false and flips on each
tick, so the two alert titles alternate once per second. -/
def notifyTitleAt (k : Nat) : String :=
  if k % 2 = 0 then "⚠️ VEJA AGORA!" else "📧 NOVO E-MAIL!"

/-- The safety timeout that stops the title alert
(tempmail.js line 275). -/
def notifyTimeoutMs : Nat := 10000

/-- notifyNewEmail stopAlert handler: restores the old title
(tempmail.js lines 267-271), run on window focus or after the safety
timeout. -/
def stopAlertTitle (oldTitle : String) : String := oldTitle

/-- On a fetched success tick, rendered and notified are exactly the
recorded flags of the ok branch. -/
theorem refreshMessages_ok_flags (s : ClientState) (hidden reading : Bool)
    (n : Nat) :
    (refreshMessages s hidden reading (.ok n)).fetched = false ∨
    ((refreshMessages s hidden reading (.ok n)).rendered
        = decide (s.lastMessageCount < n) ∧
     (refreshMessages s hidden reading (.ok n)).notified
        = (decide (s.lastMessageCount < n) && hidden &&
           (decide (0 < s.sessionSecondsRemaining) &&
            decide (s.sessionSecondsRemaining ≤ 25)))) := by
  simp only [refreshMessages, skippedTick]
  split
  · left; rfl
  · split
    · left; rfl
    · split
      · left; rfl
      · right; exact ⟨rfl, rfl⟩

/-- A success tick whose count does not exceed the last known count never
notifies. -/
theorem refreshMessages_no_growth_no_notify (s : ClientState)
    (hidden reading : Bool) (n : Nat) (h : ¬ s.lastMessageCount < n) :
    (refreshMessages s hidden reading (.ok n)).notified = false := by
  simp only [refreshMessages, skippedTick]
  repeat' split
  all_goals simp_all

/-- C8: on a successful poll whose returned count exceeds
lastMessageCount, the list is re-rendered and notifyNewEmail fires if and
only if the document is hidden and the session is inside the critical
window at that tick; a poll whose count does not exceed lastMessageCount
never notifies; the notification alternates the two alert titles once per
second, the stop handler restores the old title, and the safety timeout
is 10 seconds. -/
theorem claim_C8_notify (s : ClientState) (hidden reading : Bool)
    (n : Nat) :
    ((refreshMessages s hidden reading (.ok n)).fetched = true →
      s.lastMessageCount < n →
      ((refreshMessages s hidden reading (.ok n)).rendered = true ∧
       ((refreshMessages s hidden reading (.ok n)).notified = true ↔
         (hidden = true ∧ 0 < s.sessionSecondsRemaining ∧
          s.sessionSecondsRemaining ≤ 25)))) ∧
    (¬ s.lastMessageCount < n →
      (refreshMessages s hidden reading (.ok n)).notified = false) ∧
    (∀ k, notifyTitleAt k ≠ notifyTitleAt (k + 1)) ∧
    (∀ oldTitle, stopAlertTitle oldTitle = oldTitle) ∧
    notifyTimeoutMs = 10000 := by
  refine ⟨?_, ?_, ?_, fun _ => rfl, rfl⟩
  · intro hf hlt
    rcases refreshMessages_ok_flags s hidden reading n with h0 | ⟨hr, hn⟩
    · rw [hf] at h0; exact absurd h0 (by simp)
    · refine ⟨by rw [hr]; simp [hlt], ?_⟩
      rw [hn]
      simp [hlt, Bool.and_eq_true, decide_eq_true_eq, and_assoc]
  · exact refreshMessages_no_growth_no_notify s hidden reading n
  · intro k
    unfold notifyTitleAt
    by_cases hk : k % 2 = 0
    · rw [if_pos hk, if_neg (by omega)]
      decide
    · rw [if_neg hk, if_pos (by omega)]
      decide

/-- Witness for C8: a hidden tick inside the critical window with growth
2 to 3 notifies; the same tick while visible does not. -/
theorem claim_C8_notify_witness :
    (refreshMessages ⟨false, false, 20, 2, 0⟩ true false (.ok 3)).rendered
        = true ∧
    (refreshMessages ⟨false, false, 20, 2, 0⟩ true false (.ok 3)).notified
        = true ∧
    (refreshMessages ⟨false, false, 20, 2, 0⟩ false false (.ok 3)).notified
        ≠ true := by
  have h1 := (claim_C8_notify ⟨false, false, 20, 2, 0⟩ true false 3).1
    (by decide) (by decide)
  have h2 := (claim_C8_notify ⟨false, false, 20, 2, 0⟩ false false 3).1
    (by decide) (by decide)
  exact ⟨h1.1, h1.2.mpr ⟨rfl, by decide, by decide⟩,
         fun hn => absurd (h2.2.mp hn).1 (by decide)⟩

/-! ### Attachment size rendering (formatSize). -/

/-- The unit array of formatSize (tempmail.js line 918). -/
def sizesUnits : List String := ["B", "KB", "MB", "GB"]

/-- JavaScript array indexing sizes[i]: an out-of-range access yields
undefined, which string concatenation renders as "undefined". -/
def jsIndexUnit (i : Nat) : String := (sizesUnits[i]?).getD "undefined"

/-- JavaScript rendering of parseFloat(x.toFixed(1)) for the nonnegative
value n / 10: Number-to-String drops a trailing .0. -/
def jsTenthString (n : Int) : String :=
  if n % 10 = 0 then toString (n / 10)
  else toString (n / 10) ++ "." ++ toString (n % 10)

/-- Embedding of formatSize (tempmail.js lines 915-921).  The index
i = Math.floor(Math.log(bytes) / Math.log(1024)) equals
Nat.log 1024 bytes for every positive integer byte count: the float
ratio is exact at the powers 1024 ^ j (both logarithms round on grids
that scale by the exact power of two 4), and between powers the ratio is
separated from the integers by far more than the rounding error of the
two calls.  bytes / Math.pow(1024, i) is exact in IEEE doubles
(bytes < 2 ^ 53 and the divisor is a power of two), and toFixed(1)
rounds that exact value to one decimal; a tie is impossible because
10 * bytes / 2 ^ (10 i) = m + 1/2 would force 5 to divide a power of
two. -/
def formatSize (bytes : Nat) : String :=
  if bytes = 0 then "0 B"
  else
    let i := Nat.log 1024 bytes
    let n : Int := round ((10 * bytes : ℚ) / (1024 : ℚ) ^ i)
    jsTenthString n ++ " " ++ jsIndexUnit i

/-- C9: formatSize maps 0 to "0 B"; for 1 ≤ b < 1024 ^ 4 the unit index
floor (log base 1024 of b) stays inside the unit array and the result is
b / 1024 ^ i rounded to one decimal, a space, and that unit; for
b ≥ 1024 ^ 4 the index runs past the end of the array and the unit
suffix is the rendering of undefined. -/
theorem claim_C9_formatSize (b : Nat) :
    formatSize 0 = "0 B" ∧
    (1 ≤ b → b < 1024 ^ 4 →
      Nat.log 1024 b < 4 ∧
      sizesUnits[Nat.log 1024 b]? = some (jsIndexUnit (Nat.log 1024 b)) ∧
      formatSize b =
        jsTenthString
            (round ((10 * b : ℚ) / (1024 : ℚ) ^ Nat.log 1024 b))
          ++ " " ++ jsIndexUnit (Nat.log 1024 b)) ∧
    (1024 ^ 4 ≤ b →
      4 ≤ Nat.log 1024 b ∧
      jsIndexUnit (Nat.log 1024 b) = "undefined" ∧
      ∃ p, formatSize b = p ++ " " ++ "undefined") := by
  refine ⟨rfl, ?_, ?_⟩
  · intro h1 h2
    have hlog : Nat.log 1024 b < 4 :=
      Nat.log_lt_of_lt_pow (by omega) h2
    refine ⟨hlog, ?_, ?_⟩
    · rcases hi : Nat.log 1024 b with _ | _ | _ | _ | i
      · rfl
      · rfl
      · rfl
      · rfl
      · rw [hi] at hlog; omega
    · simp only [formatSize]
      rw [if_neg (by omega)]
  · intro hge
    have h40 : (1024 : Nat) ^ 4 = 1099511627776 := by norm_num
    have hb0 : b ≠ 0 := by omega
    have hlog : 4 ≤ Nat.log 1024 b :=
      (Nat.pow_le_iff_le_log (by norm_num) hb0).mp hge
    have hund : jsIndexUnit (Nat.log 1024 b) = "undefined" := by
      unfold jsIndexUnit
      rw [List.getElem?_eq_none (by simpa [sizesUnits] using hlog)]
      rfl
    refine ⟨hlog, hund, ?_⟩
    refine ⟨jsTenthString
      (round ((10 * b : ℚ) / (1024 : ℚ) ^ Nat.log 1024 b)), ?_⟩
    simp only [formatSize]
    rw [if_neg hb0, hund]

/-- Witness for C9 at b = 1536 (inside range) and b = 1024 ^ 4 (first
overflowing index). -/
theorem claim_C9_formatSize_witness :
    (Nat.log 1024 1536 < 4 ∧
      formatSize 1536 =
        jsTenthString
            (round ((10 * 1536 : ℚ) / (1024 : ℚ) ^ Nat.log 1024 1536))
          ++ " " ++ jsIndexUnit (Nat.log 1024 1536)) ∧
    (4 ≤ Nat.log 1024 (1024 ^ 4) ∧
      ∃ p, formatSize (1024 ^ 4) = p ++ " " ++ "undefined") := by
  have h1 := (claim_C9_formatSize 1536).2.1 (by decide) (by decide)
  have h2 := (claim_C9_formatSize (1024 ^ 4)).2.2 (le_refl _)
  exact ⟨⟨h1.1, h1.2.2⟩, ⟨h2.1, h2.2.2⟩⟩

/-! ### Username validation (saveEditModal). -/

/-- JavaScript String.prototype.trim, over the character list. -/
def jsTrim (s : String) : String :=
  String.mk
    (((s.data.dropWhile Char.isWhitespace).reverse.dropWhile
        Char.isWhitespace).reverse)

/-- Combining diacritical marks U+0300 to U+036F, the range stripped by
replace with the regex class of tempmail.js line 1151. -/
def isCombiningMark (c : Char) : Bool :=
  0x300 ≤ c.toNat && c.toNat ≤ 0x36F

/-- Model of the JavaScript String.normalize NFKD decomposition (the code
delegates it to the engine Unicode tables, outside the repository),
restricted to the precomposed Latin-1 letters; every other character
decomposes to itself. -/
def nfkdChar : Char → List Char
  | 'à' => ['a', '̀']
  | 'á' => ['a', '́']
  | 'â' => ['a', '̂']
  | 'ã' => ['a', '̃']
  | 'ä' => ['a', '̈']
  | 'ç' => ['c', '̧']
  | 'è' => ['e', '̀']
  | 'é' => ['e', '́']
  | 'ê' => ['e', '̂']
  | 'ë' => ['e', '̈']
  | 'ì' => ['i', '̀']
  | 'í' => ['i', '́']
  | 'î' => ['i', '̂']
  | 'ï' => ['i', '̈']
  | 'ñ' => ['n', '̃']
  | 'ò' => ['o', '̀']
  | 'ó' => ['o', '́']
  | 'ô' => ['o', '̂']
  | 'õ' => ['o', '̃']
  | 'ö' => ['o', '̈']
  | 'ù' => ['u', '̀']
  | 'ú' => ['u', '́']
  | 'û' => ['u', '̂']
  | 'ü' => ['u', '̈']
  | 'À' => ['A', '̀']
  | 'Á' => ['A', '́']
  | 'Â' => ['A', '̂']
  | 'Ã' => ['A', '̃']
  | 'Ä' => ['A', '̈']
  | 'Ç' => ['C', '̧']
  | 'É' => ['E', '́']
  | 'Ê' => ['E', '̂']
  | 'Í' => ['I', '́']
  | 'Ó' => ['O', '́']
  | 'Ô' => ['O', '̂']
  | 'Õ' => ['O', '̃']
  | 'Ú' => ['U', '́']
  | 'Ü' => ['U', '̈']
  | c => [c]

/-- username.normalize(NFKD) followed by stripping the combining marks
(tempmail.js line 1151). -/
def normalizeStripMarks (s : String) : String :=
  String.mk
    ((s.data.map nfkdChar).flatten.filter (fun c => !isCombiningMark c))

/-- The character class of the validation regex of tempmail.js line 1165
(letters, digits, dot, underscore, hyphen). -/
def isValidUsernameChar (c : Char) : Bool :=
  ('a' ≤ c && c ≤ 'z') || ('A' ≤ c && c ≤ 'Z') ||
    ('0' ≤ c && c ≤ '9') || c = '.' || c = '_' || c = '-'

/-- username.split(at-sign)[0]: the part before the first at-sign. -/
def jsLocalPart (s : String) : String :=
  String.mk (s.data.takeWhile (fun c => c ≠ '@'))

/-- Remove the first at-sign, as the JavaScript single-string replace of
tempmail.js line 1172 does. -/
def removeFirstAtChar : List Char → List Char
  | [] => []
  | c :: rest => if c = '@' then rest else c :: removeFirstAtChar rest

/-- domainLabel.replace of the at-sign with the empty string (first
occurrence only). -/
def jsRemoveFirstAt (s : String) : String :=
  String.mk (removeFirstAtChar s.data)

/-- username.startsWith of a dot. -/
def startsWithDot (s : String) : Bool :=
  match s.data.head? with
  | some c => c == '.'
  | none => false

/-- username.endsWith of a dot. -/
def endsWithDot (s : String) : Bool :=
  match s.data.getLast? with
  | some c => c == '.'
  | none => false

/-- The username that reaches the validation checks: trimmed input, cut
to the local part when it contains an at-sign, NFKD-normalized with
combining marks stripped (tempmail.js lines 1132-1156). -/
def processedUsername (input : String) : String :=
  let u := jsTrim input
  let u := if u.data.contains '@' then jsLocalPart u else u
  normalizeStripMarks u

/-- What saveEditModal does before any network activity. -/
inductive EditOutcome where
  | rejected
  | noopClose
  | submit (fullEmail : String)
deriving Repr, DecidableEq

/-- Embedding of the validation of saveEditModal (tempmail.js lines
1128-1199): rejected means the method returns with a toast and no
network call; noopClose means the composed address equals the current
one, so the dialog closes without a network call; submit carries the
address POSTed to /api/email/. -/
def saveEditModalValidate (input currentEmail domainLabel : String) :
    EditOutcome :=
  let username := jsTrim input
  if username = "" then .rejected
  else
    let username :=
      if username.data.contains '@' then jsLocalPart username else username
    if username = "" then .rejected
    else
      let username := normalizeStripMarks username
      if startsWithDot username || endsWithDot username then .rejected
      else if !(!username.data.isEmpty &&
                username.data.all isValidUsernameChar) then .rejected
      else
        let domain := jsTrim (jsRemoveFirstAt domainLabel)
        let fullEmail := username ++ "@" ++ domain
        if fullEmail = currentEmail then .noopClose
        else .submit fullEmail

/-- Any outcome other than rejected implies all the syntactic checks
passed on the processed username. -/
theorem saveEditModalValidate_pass (input cur dom : String) :
    saveEditModalValidate input cur dom = .rejected ∨
    (startsWithDot (processedUsername input) = false ∧
     endsWithDot (processedUsername input) = false ∧
     (processedUsername input).data.all isValidUsernameChar = true) := by
  simp only [saveEditModalValidate, processedUsername]
  repeat' split
  all_goals first
    | (left; rfl)
    | (right; simp_all)

/-- When the composed address equals the current one, the validation
never reaches the submit branch. -/
theorem saveEditModalValidate_noop (input cur dom : String)
    (hcomp : processedUsername input ++ "@" ++
        jsTrim (jsRemoveFirstAt dom) = cur) :
    saveEditModalValidate input cur dom = .rejected ∨
    saveEditModalValidate input cur dom = .noopClose := by
  simp only [processedUsername] at hcomp
  simp only [saveEditModalValidate]
  repeat' split
  all_goals first
    | (left; rfl)
    | (right; rfl)
    | simp_all

/-- C6: saveEditModal trims the input, keeps only the local part when it
contains an at-sign, applies NFKD normalization with combining marks
stripped (so the accented example becomes Joao.Pedro), rejects with no
network call any processed username that starts or ends with a dot or
contains a character outside the allowed class, and closes the dialog as
a no-op with no network call when the composed address equals the
current one. -/
theorem claim_C6_username_validation
    (input currentEmail domainLabel : String) :
    saveEditModalValidate "João.Pedro" "x@tm.io" "@tm.io"
        = .submit "Joao.Pedro@tm.io" ∧
    processedUsername "João.Pedro" = "Joao.Pedro" ∧
    processedUsername " test@other.com " = "test" ∧
    saveEditModalValidate "x" "x@tm.io" "@tm.io" = .noopClose ∧
    (startsWithDot (processedUsername input) = true →
      saveEditModalValidate input currentEmail domainLabel = .rejected) ∧
    (endsWithDot (processedUsername input) = true →
      saveEditModalValidate input currentEmail domainLabel = .rejected) ∧
    ((processedUsername input).data.any (fun c => !isValidUsernameChar c)
        = true →
      saveEditModalValidate input currentEmail domainLabel = .rejected) ∧
    (processedUsername input ++ "@" ++ jsTrim (jsRemoveFirstAt domainLabel)
        = currentEmail →
      ∀ e, saveEditModalValidate input currentEmail domainLabel
          ≠ .submit e) := by
  refine ⟨by decide, by decide, by decide, by decide, ?_, ?_, ?_, ?_⟩
  · intro hdot
    rcases saveEditModalValidate_pass input currentEmail domainLabel
      with h0 | ⟨h1, _, _⟩
    · exact h0
    · rw [hdot] at h1; exact absurd h1 (by simp)
  · intro hdot
    rcases saveEditModalValidate_pass input currentEmail domainLabel
      with h0 | ⟨_, h2, _⟩
    · exact h0
    · rw [hdot] at h2; exact absurd h2 (by simp)
  · intro hbad
    rcases saveEditModalValidate_pass input currentEmail domainLabel
      with h0 | ⟨_, _, h3⟩
    · exact h0
    · rcases List.any_eq_true.mp hbad with ⟨c, hc, hv⟩
      have := List.all_eq_true.mp h3 c hc
      rw [this] at hv
      exact absurd hv (by simp)
  · intro hcomp e
    rcases saveEditModalValidate_noop input currentEmail domainLabel hcomp
      with h0 | h0 <;> simp [h0]

/-- Witness for C6: a leading dot and an inner space are rejected; the
unchanged address closes as a no-op. -/
theorem claim_C6_username_validation_witness :
    saveEditModalValidate ".abc" "x@tm.io" "@tm.io" = .rejected ∧
    saveEditModalValidate "ab cd" "x@tm.io" "@tm.io" = .rejected ∧
    saveEditModalValidate "x" "x@tm.io" "@tm.io" = .noopClose := by
  have h := claim_C6_username_validation ".abc" "x@tm.io" "@tm.io"
  have h2 := claim_C6_username_validation "ab cd" "x@tm.io" "@tm.io"
  exact ⟨h.2.2.2.2.1 (by decide), h2.2.2.2.2.2.2.1 (by decide),
         h.2.2.2.1⟩

/-! ### Hidden-URL detection (detectHiddenUrl).

The domain regex of tempmail.js line 734 is ([a-z0-9|-]+\.)+[a-z]{2,}
with the i flag.  Its JavaScript match semantics are deterministic
enough to embed directly: each group iteration is a maximal nonempty run
of label characters followed by a literal dot (no internal backtracking,
since the dot is not a label character); the + quantifier is greedy and
backtracks one iteration at a time; the final [a-z]{2,} is greedy with
nothing after it; the overall match is the leftmost one. -/

/-- Character class [a-z0-9|-] with the i flag. -/
def isDomainLabelChar (c : Char) : Bool :=
  ('a' ≤ c && c ≤ 'z') || ('A' ≤ c && c ≤ 'Z') ||
    ('0' ≤ c && c ≤ '9') || c = '|' || c = '-'

/-- Character class [a-z] with the i flag. -/
def isAsciiLetter (c : Char) : Bool :=
  ('a' ≤ c && c ≤ 'z') || ('A' ≤ c && c ≤ 'Z')

/-- One iteration of the group: a maximal nonempty run of label
characters followed by a dot; returns the consumed characters and the
remainder. -/
def labelDot (l : List Char) : Option (List Char × List Char) :=
  let run := l.takeWhile isDomainLabelChar
  let rest := l.dropWhile isDomainLabelChar
  if run.isEmpty then none
  else
    match rest with
    | '.' :: rest2 => some (run ++ ['.'], rest2)
    | _ => none

/-- Exactly k group iterations followed by the greedy tail [a-z]{2,}. -/
def groupsThenTail : Nat → List Char → Option (List Char)
  | 0, l =>
    let run := l.takeWhile isAsciiLetter
    if 2 ≤ run.length then some run else none
  | k + 1, l =>
    match labelDot l with
    | none => none
    | some (c, rest) =>
      match groupsThenTail k rest with
      | none => none
      | some m => some (c ++ m)

/-- Greedy match anchored at the head: the largest feasible iteration
count wins, backtracking one iteration at a time (counts above the
deterministic maximum simply fail). -/
def matchFrom : Nat → List Char → Option (List Char)
  | 0, _ => none
  | k + 1, l =>
    match groupsThenTail (k + 1) l with
    | some m => some m
    | none => matchFrom k l

/-- Leftmost match of the domain regex, as String.prototype.match finds
it: try each start position from the left. -/
def domainScan : List Char → Option (List Char)
  | [] => none
  | c :: rest =>
    match matchFrom (c :: rest).length (c :: rest) with
    | some m => some m
    | none => domainScan rest

/-- text.match(domainRegex), first match only. -/
def domainMatch (text : String) : Option String :=
  (domainScan text.data).map String.mk

/-- JavaScript toLowerCase on the ASCII range. -/
def jsToLower (s : String) : String := String.mk (s.data.map Char.toLower)

/-- Bool test that the first list is a prefix of the second. -/
def listPrefixEq : List Char → List Char → Bool
  | [], _ => true
  | _ :: _, [] => false
  | a :: as, b :: bs => a == b && listPrefixEq as bs

/-- href.startsWith of the pattern p. -/
def strStartsWith (s p : String) : Bool := listPrefixEq p.data s.data

/-- actualDomain.endsWith of the pattern p. -/
def strEndsWith (s p : String) : Bool :=
  listPrefixEq p.data.reverse s.data.reverse

/-- Model of the hostname delivered by a successful new URL(href) in the
browser, restricted to scheme://host... shapes (the URL parser lives in
the engine, outside the repository); none models the constructor
throwing.  The universal statement about detectHiddenUrl is conditioned
on the output of this function. -/
def urlHostname (href : String) : Option String :=
  let l := href.data
  let scheme := l.takeWhile (fun c => c ≠ ':')
  let rest := l.dropWhile (fun c => c ≠ ':')
  match rest with
  | ':' :: '/' :: '/' :: tail =>
    let host := tail.takeWhile
      (fun c => c ≠ '/' && c ≠ ':' && c ≠ '?' && c ≠ '#')
    if scheme.isEmpty || host.isEmpty then none
    else some (String.mk host)
  | _ => none

/-- Embedding of detectHiddenUrl (tempmail.js lines 725-753). -/
def detectHiddenUrl (text href : String) : Bool :=
  if !(text.data.contains '.') && !(text.data.contains '/') then false
  else
    match urlHostname href with
    | some host =>
      match domainMatch text with
      | some m =>
        let textDomain := jsToLower m
        let actualDomain := jsToLower host
        textDomain != actualDomain &&
          !strEndsWith actualDomain ("." ++ textDomain)
      | none => false
    | none =>
      strStartsWith text "http" &&
        !strStartsWith href (String.mk (text.data.take 15))

/-- A successful labelDot consumed a prefix containing a dot. -/
theorem labelDot_eq (l c rest : List Char)
    (h : labelDot l = some (c, rest)) : c ++ rest = l ∧ '.' ∈ c := by
  simp only [labelDot] at h
  split at h
  · exact absurd h (by simp)
  · split at h
    · next rest2 heq =>
      simp only [Option.some.injEq, Prod.mk.injEq] at h
      obtain ⟨h1, h2⟩ := h
      subst h1 h2
      constructor
      · rw [List.append_assoc, List.singleton_append, ← heq,
          List.takeWhile_append_dropWhile]
      · simp
    · exact absurd h (by simp)

/-- A match produced by groupsThenTail only uses characters of the
input. -/
theorem groupsThenTail_subset (k : Nat) (l m : List Char)
    (h : groupsThenTail k l = some m) : ∀ x ∈ m, x ∈ l := by
  induction k generalizing l m with
  | zero =>
    simp only [groupsThenTail] at h
    split at h
    · simp only [Option.some.injEq] at h
      subst h
      intro x hx
      exact (List.takeWhile_prefix isAsciiLetter).subset hx
    · exact absurd h (by simp)
  | succ k ih =>
    unfold groupsThenTail at h
    split at h
    · exact absurd h (by simp)
    · next c rest heq =>
      split at h
      · exact absurd h (by simp)
      · next m2 heq2 =>
        simp only [Option.some.injEq] at h
        subst h
        intro x hx
        obtain ⟨hcr, _⟩ := labelDot_eq l c rest heq
        rw [← hcr]
        rcases List.mem_append.mp hx with hx | hx
        · exact List.mem_append.mpr (Or.inl hx)
        · exact List.mem_append.mpr (Or.inr (ih rest m2 heq2 x hx))

/-- A match with at least one group iteration contains a dot. -/
theorem groupsThenTail_dot (k : Nat) (l m : List Char)
    (h : groupsThenTail (k + 1) l = some m) : '.' ∈ m := by
  unfold groupsThenTail at h
  split at h
  · exact absurd h (by simp)
  · next c rest heq =>
    split at h
    · exact absurd h (by simp)
    · next m2 heq2 =>
      simp only [Option.some.injEq] at h
      subst h
      exact List.mem_append.mpr (Or.inl (labelDot_eq l c rest heq).2)

/-- Any anchored match contains a dot and uses characters of the
input. -/
theorem matchFrom_spec (b : Nat) (l m : List Char)
    (h : matchFrom b l = some m) : '.' ∈ m ∧ ∀ x ∈ m, x ∈ l := by
  induction b generalizing m with
  | zero => simp [matchFrom] at h
  | succ b ih =>
    unfold matchFrom at h
    split at h
    · next heq =>
      simp only [Option.some.injEq] at h
      subst h
      exact ⟨groupsThenTail_dot b l _ heq,
             groupsThenTail_subset (b + 1) l _ heq⟩
    · exact ih m h

/-- Any leftmost match contains a dot and uses characters of the
text. -/
theorem domainScan_spec (l m : List Char) (h : domainScan l = some m) :
    '.' ∈ m ∧ ∀ x ∈ m, x ∈ l := by
  induction l with
  | nil => simp [domainScan] at h
  | cons c rest ih =>
    unfold domainScan at h
    split at h
    · next heq =>
      simp only [Option.some.injEq] at h
      subst h
      exact matchFrom_spec _ _ _ heq
    · obtain ⟨hdot, hsub⟩ := ih h
      exact ⟨hdot, fun x hx => List.mem_cons_of_mem c (hsub x hx)⟩

/-- A text with a domain match contains a dot, so the quick guard of
detectHiddenUrl passes. -/
theorem domainMatch_contains_dot (text m : String)
    (h : domainMatch text = some m) : text.data.contains '.' = true := by
  unfold domainMatch at h
  cases hs : domainScan text.data with
  | none => rw [hs] at h; exact absurd h (by simp)
  | some ml =>
    obtain ⟨hdot, hsub⟩ := domainScan_spec text.data ml hs
    simpa using hsub '.' hdot

/-- C7: detectHiddenUrl is false whenever the text has neither a dot nor
a slash; when the href parses and the text has a domain-like match, it
flags exactly a lowercased domain mismatch that is not a subdomain
relation; the bank example is flagged; plain call-to-action text is never
flagged. -/
theorem claim_C7_detectHiddenUrl (text href host m : String) :
    (text.data.contains '.' = false → text.data.contains '/' = false →
      detectHiddenUrl text href = false) ∧
    (urlHostname href = some host → domainMatch text = some m →
      (detectHiddenUrl text href = true ↔
        (jsToLower m ≠ jsToLower host ∧
         strEndsWith (jsToLower host) ("." ++ jsToLower m) = false))) ∧
    detectHiddenUrl "www.bank.com/login" "https://evil.example/phish"
        = true ∧
    (∀ h2, detectHiddenUrl "Click here" h2 = false) := by
  refine ⟨?_, ?_, by decide, ?_⟩
  · intro h1 h2
    have hc : (!(text.data.contains '.') && !(text.data.contains '/'))
        = true := by
      rw [h1, h2]; rfl
    unfold detectHiddenUrl
    rw [if_pos hc]
  · intro hh hm
    have hdot := domainMatch_contains_dot text m hm
    have hc : (!(text.data.contains '.') && !(text.data.contains '/'))
        = false := by
      rw [hdot]; rfl
    unfold detectHiddenUrl
    rw [if_neg (by rw [hc]; simp)]
    simp only [hh, hm]
    simp [Bool.and_eq_true, bne_iff_ne, Bool.not_eq_true']
  · intro h2
    unfold detectHiddenUrl
    rw [if_pos (by decide)]

/-- Witness for C7: a matching domain is not flagged, and text without
domain shape is never flagged. -/
theorem claim_C7_detectHiddenUrl_witness :
    detectHiddenUrl "evil.example info" "https://evil.example/x" = false ∧
    detectHiddenUrl "Click here" "https://evil.example/x" = false := by
  have h := claim_C7_detectHiddenUrl "evil.example info"
    "https://evil.example/x" "evil.example" "evil.example"
  refine ⟨?_, h.2.2.2 "https://evil.example/x"⟩
  have h2 := h.2.1 (by decide) (by decide)
  cases hb : detectHiddenUrl "evil.example info" "https://evil.example/x"
  · rfl
  · exact absurd rfl (h2.mp hb).1

end TempMail
